import Mathlib

/-!
Verification of the MythrilMerch cart/catalog/order contract.

The data model follows db/schema.ts and db/migrations/001_initial_schema.sql
together with db/migrations/002_add_user_auth.sql (which adds the user_id
column to cart_items).  DECIMAL(10,2) money columns are embedded as integers
counted in cents, which is exact for every value the schema can store.
Timestamps are embedded as an abstract Nat clock.  The store-level operations
(addToCart, updateCartItem, removeCartItem, placeOrder) are modelled from the
specification, because the Flask application code that implements them is not
part of the repository snapshot; the schema-level behaviour (cascade deletes,
updated_at triggers, decimal price columns) is taken from the SQL source.
-/

namespace MythrilMerch

/-- Embedding of the products table of db/schema.ts: id, name, description,
price DECIMAL(10,2) (held in cents), image_url, created_at, updated_at. -/
structure Product where
  id : Nat
  name : String
  description : String
  price : Int
  imageUrl : String
  createdAt : Nat
  updatedAt : Nat
  deriving DecidableEq

/-- Embedding of the cart_items table of db/schema.ts plus the user_id column
added by migration 002_add_user_auth.sql. -/
structure CartItem where
  id : Nat
  productId : Nat
  quantity : Int
  userId : Nat
  createdAt : Nat
  updatedAt : Nat
  deriving DecidableEq

/-- Embedding of the users table of db/schema.ts. -/
structure User where
  id : Nat
  email : String
  name : String
  createdAt : Nat
  updatedAt : Nat
  deriving DecidableEq

/-- Embedding of the orders table of db/schema.ts: total_amount DECIMAL(10,2)
held in cents, status defaulting to "pending". -/
structure Order where
  id : Nat
  userId : Option Nat
  totalAmount : Int
  status : String
  createdAt : Nat
  updatedAt : Nat
  deriving DecidableEq

/-- Embedding of the order_items table of db/schema.ts: snapshot of product,
quantity and price (cents) at order time; no updated_at column. -/
structure OrderItem where
  id : Nat
  orderId : Nat
  productId : Nat
  quantity : Int
  price : Int
  createdAt : Nat
  deriving DecidableEq

/-- The persisted relations of 001_initial_schema.sql, with the serial
counters that generate surrogate ids. -/
structure Store where
  products : List Product
  users : List User
  cartItems : List CartItem
  orders : List Order
  orderItems : List OrderItem
  nextCartItemId : Nat
  nextOrderId : Nat
  nextOrderItemId : Nat
  deriving DecidableEq

/-- Error taxonomy of spec section 7. -/
inductive ApiError where
  | NotFound
  | InvalidArgument
  | ServiceUnavailable
  deriving DecidableEq

/-- Row matches the (owner, productId) pair. -/
def CartItem.isFor (i : CartItem) (owner pid : Nat) : Bool :=
  i.userId == owner && i.productId == pid

/-- Row matches the (owner, cartItemId) pair. -/
def CartItem.isOwnedRow (i : CartItem) (owner cid : Nat) : Bool :=
  i.id == cid && i.userId == owner

/-- Embedding of the SQL function update_updated_at_column as installed by
trigger update_cart_items_updated_at: BEFORE UPDATE on cart_items, the engine
sets NEW.updated_at = NOW() on the row produced by the caller's SET clause. -/
def update_updated_at_cart_items (now : Nat) (new : CartItem) : CartItem :=
  { new with updatedAt := now }

/-- Embedding of update_updated_at_column as installed by trigger
update_products_updated_at on the products table. -/
def update_updated_at_products (now : Nat) (new : Product) : Product :=
  { new with updatedAt := now }

/-- Embedding of update_updated_at_column as installed by trigger
update_users_updated_at on the users table. -/
def update_updated_at_users (now : Nat) (new : User) : User :=
  { new with updatedAt := now }

/-- Embedding of update_updated_at_column as installed by trigger
update_orders_updated_at on the orders table. -/
def update_updated_at_orders (now : Nat) (new : Order) : Order :=
  { new with updatedAt := now }

/-- getProduct read path: first product with the given id. -/
def getProduct (s : Store) (pid : Nat) : Option Product :=
  s.products.find? (fun p => p.id == pid)

/-- Catalog price (in cents) of a product id, 0 when absent. -/
def priceOf (s : Store) (pid : Nat) : Int :=
  match getProduct s pid with
  | some p => p.price
  | none => 0

/-- The owner's cart rows. -/
def cartFor (s : Store) (owner : Nat) : List CartItem :=
  s.cartItems.filter (fun i => i.userId == owner)

/-- The cart rows for one (owner, productId) pair. -/
def pairRows (s : Store) (owner pid : Nat) : List CartItem :=
  s.cartItems.filter (fun i => i.isFor owner pid)

/-- The INSERT row of a first add-to-cart: serial id, the given pair and
quantity, created_at and updated_at both DEFAULT NOW(). -/
def freshRow (s : Store) (owner pid : Nat) (qty : Int) (now : Nat) : CartItem :=
  { id := s.nextCartItemId, productId := pid, quantity := qty,
    userId := owner, createdAt := now, updatedAt := now }

/-- Modelled from the spec: `addToCart(owner, productId, quantity)` of section
4.2 — the Flask handler implementing it is not in the repository snapshot.
Validates that the product exists (else NotFound) and that the quantity is a
positive integer (else InvalidArgument); increments the existing
(owner, productId) row if there is one, applying the cart_items updated_at
trigger, otherwise inserts a fresh row.  On an error the store is returned
unchanged (the failed call performs no write). -/
def addToCart (s : Store) (owner pid : Nat) (qty : Int) (now : Nat) :
    Store × Except ApiError CartItem :=
  if (getProduct s pid).isNone then
    (s, .error .NotFound)
  else if qty < 1 then
    (s, .error .InvalidArgument)
  else
    match s.cartItems.find? (fun i => i.isFor owner pid) with
    | some i =>
        ({ s with
            cartItems := s.cartItems.map (fun j =>
              if j.isFor owner pid then
                update_updated_at_cart_items now { j with quantity := j.quantity + qty }
              else j) },
         .ok (update_updated_at_cart_items now { i with quantity := i.quantity + qty }))
    | none =>
        ({ s with cartItems := s.cartItems ++ [freshRow s owner pid qty now],
                  nextCartItemId := s.nextCartItemId + 1 },
         .ok (freshRow s owner pid qty now))

/-- Modelled from the spec: `updateCartItem(owner, cartItemId, quantity)` of
section 4.2 — the Flask handler implementing it is not in the repository
snapshot.  NotFound when no row with that id belongs to the owner; a quantity
of 0 or less is treated as removal; otherwise the row's quantity is set and
the cart_items updated_at trigger fires. -/
def updateCartItem (s : Store) (owner cid : Nat) (qty : Int) (now : Nat) :
    Store × Except ApiError Unit :=
  match s.cartItems.find? (fun i => i.isOwnedRow owner cid) with
  | none => (s, .error .NotFound)
  | some _ =>
      if qty < 1 then
        ({ s with cartItems := s.cartItems.filter (fun i => !(i.isOwnedRow owner cid)) },
         .ok ())
      else
        ({ s with
            cartItems := s.cartItems.map (fun j =>
              if j.isOwnedRow owner cid then
                update_updated_at_cart_items now { j with quantity := qty }
              else j) },
         .ok ())

/-- Modelled from the spec: `removeCartItem(owner, cartItemId)` of section 4.2
— the Flask handler implementing it is not in the repository snapshot.
Removing a non-existent (or not owned) item is NotFound, not a silent
success. -/
def removeCartItem (s : Store) (owner cid : Nat) :
    Store × Except ApiError Unit :=
  if s.cartItems.any (fun i => i.isOwnedRow owner cid) then
    ({ s with cartItems := s.cartItems.filter (fun i => !(i.isOwnedRow owner cid)) },
     .ok ())
  else
    (s, .error .NotFound)

/-- Modelled from the spec: the OrderItem snapshot taken by `placeOrder` of
section 4.3 — each cart line's current catalog price is copied into an
order_items row for the order being created. -/
def orderSnapshot (s : Store) (owner now : Nat) : List OrderItem :=
  (cartFor s owner).enum.map (fun x =>
    { id := s.nextOrderItemId + x.1, orderId := s.nextOrderId,
      productId := x.2.productId, quantity := x.2.quantity,
      price := priceOf s x.2.productId, createdAt := now })

/-- Modelled from the spec: the Order row created by `placeOrder`, status
"pending", total_amount the exact sum of price times quantity over the
snapshot. -/
def newOrderRow (s : Store) (owner now : Nat) : Order :=
  { id := s.nextOrderId, userId := some owner,
    totalAmount := ((orderSnapshot s owner now).map (fun oi => oi.price * oi.quantity)).sum,
    status := "pending", createdAt := now, updatedAt := now }

/-- Modelled from the spec: the body of the `placeOrder` transaction of
section 4.3.  Fails InvalidArgument on an empty cart; inserts the order row;
`failMid` injects the storage failure of spec section 8 ("after order-row
insert but before cart-clear"); then inserts the order_items rows and clears
the owner's cart. -/
def placeOrderBody (s : Store) (owner now : Nat) (failMid : Bool) :
    Except ApiError Store :=
  if (cartFor s owner).isEmpty then
    .error .InvalidArgument
  else
    let s1 := { s with orders := s.orders ++ [newOrderRow s owner now],
                       nextOrderId := s.nextOrderId + 1 }
    if failMid then
      .error .ServiceUnavailable
    else
      let snap := orderSnapshot s owner now
      let s2 := { s1 with orderItems := s1.orderItems ++ snap,
                          nextOrderItemId := s.nextOrderItemId + snap.length }
      .ok { s2 with cartItems := s2.cartItems.filter (fun i => !(i.userId == owner)) }

/-- Modelled from the spec: `placeOrder` runs its body as a single
all-or-nothing transaction (section 4.3); when the body fails, the
transaction rolls back and the observable store is the caller's store
unchanged. -/
def placeOrderTx (s : Store) (owner now : Nat) (failMid : Bool) :
    Store × Except ApiError Unit :=
  match placeOrderBody s owner now failMid with
  | .ok s2 => (s2, .ok ())
  | .error e => (s, .error e)

/-- Modelled from the spec: `placeOrder(owner)` without injected failure. -/
def placeOrder (s : Store) (owner now : Nat) : Store × Except ApiError Unit :=
  placeOrderTx s owner now false

/-- Embedding of the ON DELETE CASCADE clauses of db/schema.ts: deleting a
product removes it from the catalog and cascades deletion of every cart_items
row and every order_items row whose product_id references it. -/
def deleteProduct (s : Store) (pid : Nat) : Store :=
  { s with products := s.products.filter (fun p => !(p.id == pid)),
           cartItems := s.cartItems.filter (fun i => !(i.productId == pid)),
           orderItems := s.orderItems.filter (fun oi => !(oi.productId == pid)) }

/-- The mutating operations of the service, for reasoning about arbitrary
operation sequences. -/
inductive Op where
  | add (owner pid : Nat) (qty : Int) (now : Nat)
  | update (owner cid : Nat) (qty : Int) (now : Nat)
  | remove (owner cid : Nat)
  | checkout (owner now : Nat)
  | delProduct (pid : Nat)
  deriving DecidableEq

/-- Resulting store of one operation (errors leave the store unchanged by
construction of the operations). -/
def applyOp (s : Store) : Op → Store
  | .add owner pid qty now => (addToCart s owner pid qty now).1
  | .update owner cid qty now => (updateCartItem s owner cid qty now).1
  | .remove owner cid => (removeCartItem s owner cid).1
  | .checkout owner now => (placeOrder s owner now).1
  | .delProduct pid => deleteProduct s pid

/-- Resulting store of a sequence of operations. -/
def applyOps (s : Store) (ops : List Op) : Store :=
  ops.foldl applyOp s

/-- Cart-level operations (the add/update/remove cycle of spec section 8). -/
def Op.isCartOp : Op → Bool
  | .add .. => true
  | .update .. => true
  | .remove .. => true
  | _ => false

/-- Product-deletion operations. -/
def Op.isDelete : Op → Bool
  | .delProduct _ => true
  | _ => false

/-- The clock argument carried by an operation, when it has one. -/
def Op.time : Op → Option Nat
  | .add _ _ _ now => some now
  | .update _ _ _ now => some now
  | .remove _ _ => none
  | .checkout _ now => some now
  | .delProduct _ => none

/-- Invariant of spec section 3: every cart row has quantity at least 1. -/
def quantityInv (s : Store) : Prop :=
  ∀ i ∈ s.cartItems, 1 ≤ i.quantity

instance (s : Store) : Decidable (quantityInv s) := by
  unfold quantityInv; infer_instance

/-- Invariant of spec section 3: for every order, the sum of price times
quantity over its order_items rows equals its total_amount. -/
def orderTotalsInv (s : Store) : Prop :=
  ∀ o ∈ s.orders,
    ((s.orderItems.filter (fun oi => oi.orderId == o.id)).map
      (fun oi => oi.price * oi.quantity)).sum = o.totalAmount

instance (s : Store) : Decidable (orderTotalsInv s) := by
  unfold orderTotalsInv; infer_instance

/-- Serial-id discipline: every stored order id, and every order referenced by
an order_items row, is below the next serial value. -/
def orderIdsFresh (s : Store) : Prop :=
  (∀ o ∈ s.orders, o.id < s.nextOrderId) ∧
  (∀ oi ∈ s.orderItems, oi.orderId < s.nextOrderId)

instance (s : Store) : Decidable (orderIdsFresh s) := by
  unfold orderIdsFresh; infer_instance

/-- Referential integrity: every cart_items and order_items row references an
existing product. -/
def refIntegrity (s : Store) : Prop :=
  (∀ i ∈ s.cartItems, ∃ p ∈ s.products, p.id = i.productId) ∧
  (∀ oi ∈ s.orderItems, ∃ p ∈ s.products, p.id = oi.productId)

instance (s : Store) : Decidable (refIntegrity s) := by
  unfold refIntegrity; infer_instance

/-- A store with an empty catalog and empty relations. -/
def emptyStore : Store :=
  { products := [], users := [], cartItems := [], orders := [], orderItems := [],
    nextCartItemId := 1, nextOrderId := 1, nextOrderItemId := 1 }

/-- The sample mug of 001_initial_schema.sql, price 12.99 held as 1299 cents. -/
def demoMug : Product :=
  { id := 1, name := "Mythril Mug", description := "Ceramic mug",
    price := 1299, imageUrl := "", createdAt := 0, updatedAt := 0 }

/-- A store holding just the sample mug. -/
def demoStore : Store := { emptyStore with products := [demoMug] }

/-- A cart row for owner 7 holding two mugs. -/
def demoCartRow : CartItem :=
  { id := 1, productId := 1, quantity := 2, userId := 7, createdAt := 0, updatedAt := 0 }

/-- The demo store with owner 7's cart row present. -/
def demoCartStore : Store :=
  { demoStore with cartItems := [demoCartRow], nextCartItemId := 2 }

/-- The cart row after updateCartItem set its quantity to 5 at time 9. -/
def demoUpdatedRow : CartItem :=
  { id := 1, productId := 1, quantity := 5, userId := 7, createdAt := 0, updatedAt := 9 }

/-- The sample t-shirt of 001_initial_schema.sql, price 29.99 as 2999 cents. -/
def demoTee : Product :=
  { id := 1, name := "Mythril T-Shirt", description := "",
    price := 2999, imageUrl := "", createdAt := 0, updatedAt := 0 }

/-- A store holding one placed order: one t-shirt at 29.99, total 29.99. -/
def demoOrderStore : Store :=
  { products := [demoTee], users := [], cartItems := [],
    orders := [{ id := 1, userId := some 7, totalAmount := 2999, status := "pending",
                 createdAt := 0, updatedAt := 0 }],
    orderItems := [{ id := 1, orderId := 1, productId := 1, quantity := 1, price := 2999,
                     createdAt := 0 }],
    nextCartItemId := 1, nextOrderId := 2, nextOrderItemId := 2 }

/-- Ten repeated add/update cycles on the cart row for product 1 (spec
section 8's round-trip scenario). -/
def tenCycleOps : List Op :=
  [Op.add 7 1 1 1, Op.update 7 1 2 2,
   Op.add 7 1 1 3, Op.update 7 1 2 4,
   Op.add 7 1 1 5, Op.update 7 1 2 6,
   Op.add 7 1 1 7, Op.update 7 1 2 8,
   Op.add 7 1 1 9, Op.update 7 1 2 10,
   Op.add 7 1 1 11, Op.update 7 1 2 12,
   Op.add 7 1 1 13, Op.update 7 1 2 14,
   Op.add 7 1 1 15, Op.update 7 1 2 16,
   Op.add 7 1 1 17, Op.update 7 1 2 18,
   Op.add 7 1 1 19, Op.update 7 1 2 20]

end MythrilMerch

namespace FrontEnd

/-- Product record as the React frontend receives it from GET /products;
only the fields App.js reads. -/
structure Product where
  id : Nat
  name : String
  price : Int
  deriving DecidableEq

/-- Cart entry as the React frontend receives it from GET /cart. -/
structure CartItem where
  cartItemId : Nat
  productId : Nat
  quantity : Int
  deriving DecidableEq

/-- Embedding of getProductDetails of App.js:
products.find(product => product.id === productId). -/
def getProductDetails (products : List Product) (productId : Nat) : Option Product :=
  products.find? (fun product => product.id == productId)

/-- Embedding of calculateCartTotal of App.js: cart.reduce over items, adding
product.price * item.quantity when the product is found and 0 otherwise. -/
def calculateCartTotal (products : List Product) (cart : List CartItem) : Int :=
  cart.foldl (fun total item =>
    total + (match getProductDetails products item.productId with
             | some product => product.price * item.quantity
             | none => 0)) 0

/-- Embedding of getCartItemCount of App.js:
cart.reduce((total, item) => total + item.quantity, 0). -/
def getCartItemCount (cart : List CartItem) : Int :=
  cart.foldl (fun total item => total + item.quantity) 0

/-- Restatement of claim C10's description of the total, written from the
claim: the sum of price times quantity over exactly those cart items whose
productId matches a fetched product. -/
def claimedCartTotal (products : List Product) (cart : List CartItem) : Int :=
  ((cart.filter (fun item => (getProductDetails products item.productId).isSome)).map
    (fun item =>
      ((getProductDetails products item.productId).getD
        { id := 0, name := "", price := 0 }).price * item.quantity)).sum

/-- The fetched product list used in concrete frontend checks. -/
def demoFEProducts : List Product :=
  [{ id := 1, name := "Mythril Mug", price := 1299 }]

/-- A cart as fetched by the frontend: two mugs. -/
def demoFECart : List CartItem :=
  [{ cartItemId := 1, productId := 1, quantity := 2 }]

/-- A cart row whose product is no longer in the fetched catalog. -/
def danglingRow : CartItem :=
  { cartItemId := 2, productId := 999, quantity := 3 }

end FrontEnd

namespace MythrilMerch

theorem filter_map_comm {α : Type} (g : α → α) (p : α → Bool) (h : ∀ a, p (g a) = p a)
    (l : List α) : (l.map g).filter p = (l.filter p).map g := by
  induction l with
  | nil => simp
  | cons a t ih =>
    simp only [List.map_cons, List.filter_cons, h a]
    cases hp : p a <;> simp [ih]

theorem filter_not_then_filter {α : Type} (p : α → Bool) (l : List α) :
    (l.filter (fun a => !(p a))).filter p = [] := by
  rw [List.filter_eq_nil_iff]
  intro a ha
  have := (List.mem_filter.1 ha).2
  simp at this
  simp [this]

/-- Claim C6: adding a product id that names no existing product returns
NotFound and leaves the store unchanged. -/
theorem addToCart_missing_product (s : Store) (owner pid : Nat) (qty : Int) (now : Nat)
    (h : s.products.all (fun p => p.id != pid) = true) :
    addToCart s owner pid qty now = (s, .error .NotFound) := by
  have hf : getProduct s pid = none := by
    apply List.find?_eq_none.2
    intro p hp
    have := List.all_eq_true.1 h p hp
    simpa using this
  simp [addToCart, hf]

theorem addToCart_missing_product_witness :
    (demoStore.products.all (fun p => p.id != 999) = true) ∧
    addToCart demoStore 7 999 1 5 = (demoStore, .error .NotFound) :=
  ⟨by decide, addToCart_missing_product demoStore 7 999 1 5 (by decide)⟩

/-- Claim C7: removeCartItem succeeds exactly when a row with the given id
belongs to the owner, and a second removal of the same id right after a
successful one returns NotFound with the store unchanged. -/
theorem removeCartItem_contract (s : Store) (owner cid : Nat) :
    ((removeCartItem s owner cid).2 = .ok () ↔
      s.cartItems.any (fun i => i.isOwnedRow owner cid) = true) ∧
    (s.cartItems.any (fun i => i.isOwnedRow owner cid) = true →
      (removeCartItem s owner cid).2 = .ok () ∧
      removeCartItem (removeCartItem s owner cid).1 owner cid
        = ((removeCartItem s owner cid).1, .error .NotFound)) := by
  by_cases hany : s.cartItems.any (fun i => i.isOwnedRow owner cid) = true
  · refine ⟨by simp [removeCartItem, hany], fun _ => ⟨by simp [removeCartItem, hany], ?_⟩⟩
    have hnone : ((s.cartItems.filter (fun i => !(i.isOwnedRow owner cid))).any
        (fun i => i.isOwnedRow owner cid)) = false := by
      rw [List.any_eq_false]
      intro a ha
      have := (List.mem_filter.1 ha).2
      simpa using this
    simp [removeCartItem, hany, hnone]
  · have hf : s.cartItems.any (fun i => i.isOwnedRow owner cid) = false := by
      simpa using hany
    exact ⟨by simp [removeCartItem, hf], fun hc => absurd hc hany⟩

theorem removeCartItem_contract_witness :
    (demoCartStore.cartItems.any (fun i => i.isOwnedRow 7 1) = true) ∧
    (removeCartItem demoCartStore 7 1).2 = .ok () ∧
    removeCartItem (removeCartItem demoCartStore 7 1).1 7 1
      = ((removeCartItem demoCartStore 7 1).1, .error .NotFound) :=
  ⟨by decide, (removeCartItem_contract demoCartStore 7 1).2 (by decide)⟩

/-- Claim C5: deleting a product cascades deletion of every cart_items row and
every order_items row referencing it, so referential integrity is preserved. -/
theorem deleteProduct_cascades (s : Store) (pid : Nat) :
    (∀ i ∈ (deleteProduct s pid).cartItems, i.productId ≠ pid) ∧
    (∀ oi ∈ (deleteProduct s pid).orderItems, oi.productId ≠ pid) ∧
    (refIntegrity s → refIntegrity (deleteProduct s pid)) := by
  refine ⟨?_, ?_, ?_⟩
  · intro i hi
    simp only [deleteProduct] at hi
    have := (List.mem_filter.1 hi).2
    simpa using this
  · intro oi hoi
    simp only [deleteProduct] at hoi
    have := (List.mem_filter.1 hoi).2
    simpa using this
  · rintro ⟨hc, ho⟩
    constructor
    · intro i hi
      simp only [deleteProduct] at hi ⊢
      obtain ⟨hi0, hip⟩ := List.mem_filter.1 hi
      obtain ⟨p, hp, hpid⟩ := hc i hi0
      have hne : i.productId ≠ pid := by simpa using hip
      refine ⟨p, List.mem_filter.2 ⟨hp, ?_⟩, hpid⟩
      simp [hpid, hne]
    · intro oi hoi
      simp only [deleteProduct] at hoi ⊢
      obtain ⟨hoi0, hop⟩ := List.mem_filter.1 hoi
      obtain ⟨p, hp, hpid⟩ := ho oi hoi0
      have hne : oi.productId ≠ pid := by simpa using hop
      refine ⟨p, List.mem_filter.2 ⟨hp, ?_⟩, hpid⟩
      simp [hpid, hne]

theorem deleteProduct_cascades_witness :
    refIntegrity demoOrderStore ∧ refIntegrity (deleteProduct demoOrderStore 1) :=
  ⟨by decide, (deleteProduct_cascades demoOrderStore 1).2.2 (by decide)⟩

/-- Claim C2: placeOrder is all-or-nothing — on success the order row and its
order_items rows are created and the owner's cart is empty; on any failure
(including one injected after the order-row insert but before the cart is
cleared) the observable store is the caller's store unchanged. -/
theorem placeOrder_allOrNothing (s : Store) (owner now : Nat) (failMid : Bool)
    (h : (cartFor s owner).isEmpty = false) :
    (∀ s2, placeOrderTx s owner now failMid = (s2, .ok ()) →
        cartFor s2 owner = [] ∧
        s2.orders = s.orders ++ [newOrderRow s owner now] ∧
        s2.orderItems = s.orderItems ++ orderSnapshot s owner now) ∧
    (∀ s2 e, placeOrderTx s owner now failMid = (s2, .error e) → s2 = s) ∧
    (failMid = true → placeOrderTx s owner now failMid = (s, .error .ServiceUnavailable)) := by
  cases failMid with
  | true =>
    have hTx : placeOrderTx s owner now true = (s, .error .ServiceUnavailable) := by
      simp [placeOrderTx, placeOrderBody, h]
    refine ⟨?_, ?_, fun _ => hTx⟩
    · intro s2 hs2
      rw [hTx] at hs2
      simp at hs2
    · intro s2 e hs2
      rw [hTx] at hs2
      exact (Prod.mk.injEq _ _ _ _ ▸ hs2).1.symm
  | false =>
    have hTx2 : (placeOrderTx s owner now false).2 = .ok () := by
      simp [placeOrderTx, placeOrderBody, h]
    have hCart : (placeOrderTx s owner now false).1.cartItems
        = s.cartItems.filter (fun i => !(i.userId == owner)) := by
      simp [placeOrderTx, placeOrderBody, h]
    have hOrders : (placeOrderTx s owner now false).1.orders
        = s.orders ++ [newOrderRow s owner now] := by
      simp [placeOrderTx, placeOrderBody, h]
    have hItems : (placeOrderTx s owner now false).1.orderItems
        = s.orderItems ++ orderSnapshot s owner now := by
      simp [placeOrderTx, placeOrderBody, h]
    refine ⟨?_, ?_, by simp⟩
    · intro s2 hs2
      have h1 : (placeOrderTx s owner now false).1 = s2 := by rw [hs2]
      subst h1
      refine ⟨?_, hOrders, hItems⟩
      rw [cartFor, hCart]
      exact filter_not_then_filter _ _
    · intro s2 e hs2
      have : (placeOrderTx s owner now false).2 = .error e := by rw [hs2]
      rw [hTx2] at this
      simp at this

theorem placeOrder_allOrNothing_witness :
    ((cartFor demoCartStore 7).isEmpty = false) ∧
    placeOrderTx demoCartStore 7 3 true = (demoCartStore, .error .ServiceUnavailable) :=
  ⟨by decide, (placeOrder_allOrNothing demoCartStore 7 3 true (by decide)).2.2 rfl⟩

/-- Claim C1: two addToCart calls for the same (owner, productId) pair with
positive quantities, starting from a cart with no row for that pair, leave
exactly one row for the pair and its quantity is the sum of the two. -/
theorem addToCart_twice_accumulates (s : Store) (owner pid : Nat) (q1 q2 : Int) (n1 n2 : Nat)
    (hp : (getProduct s pid).isSome = true)
    (h1 : 1 ≤ q1) (h2 : 1 ≤ q2)
    (h0 : pairRows s owner pid = []) :
    pairRows (addToCart (addToCart s owner pid q1 n1).1 owner pid q2 n2).1 owner pid
      = [{ id := s.nextCartItemId, productId := pid, quantity := q1 + q2,
           userId := owner, createdAt := n1, updatedAt := n2 }] := by
  obtain ⟨p0, hp0⟩ := Option.isSome_iff_exists.1 hp
  have hq1 : ¬ (q1 < 1) := not_lt.2 h1
  have hq2 : ¬ (q2 < 1) := not_lt.2 h2
  have hnil : s.cartItems.filter (fun i => i.isFor owner pid) = [] := h0
  have hnone : s.cartItems.find? (fun i => i.isFor owner pid) = none :=
    List.find?_eq_none.2 (List.filter_eq_nil_iff.1 hnil)
  have hitem1 : (freshRow s owner pid q1 n1).isFor owner pid = true := by
    simp [CartItem.isFor, freshRow]
  have hstep1 : (addToCart s owner pid q1 n1).1
      = { s with cartItems := s.cartItems ++ [freshRow s owner pid q1 n1],
                 nextCartItemId := s.nextCartItemId + 1 } := by
    simp [addToCart, hp0, hq1, hnone]
  rw [hstep1]
  have hfind1 : ((s.cartItems ++ [freshRow s owner pid q1 n1]).find?
        (fun i => i.isFor owner pid))
      = some (freshRow s owner pid q1 n1) := by
    rw [List.find?_append, hnone]
    simp [hitem1]
  have hpres : ∀ j : CartItem,
      ((if j.isFor owner pid then
          update_updated_at_cart_items n2 { j with quantity := j.quantity + q2 }
        else j).isFor owner pid) = j.isFor owner pid := by
    intro j
    by_cases hj : j.isFor owner pid = true
    · rw [if_pos hj]
      simp [update_updated_at_cart_items, CartItem.isFor]
    · rw [if_neg hj]
  have hstep2 : (addToCart
        { s with cartItems := s.cartItems ++ [freshRow s owner pid q1 n1],
                 nextCartItemId := s.nextCartItemId + 1 } owner pid q2 n2).1
      = { s with
          cartItems := ((s.cartItems ++ [freshRow s owner pid q1 n1]).map (fun j =>
              if j.isFor owner pid then
                update_updated_at_cart_items n2 { j with quantity := j.quantity + q2 }
              else j)),
          nextCartItemId := s.nextCartItemId + 1 } := by
    have hp0' : s.products.find? (fun p => p.id == pid) = some p0 := hp0
    simp [addToCart, getProduct, hp0', hq2, hfind1]
  rw [hstep2]
  simp only [pairRows]
  rw [filter_map_comm _ _ hpres, List.filter_append, hnil]
  simp [List.filter_singleton, update_updated_at_cart_items, freshRow, CartItem.isFor]

theorem addToCart_twice_accumulates_witness :
    ((getProduct demoStore 1).isSome = true) ∧ ((1:Int) ≤ 2) ∧ ((1:Int) ≤ 3) ∧
    (pairRows demoStore 7 1 = []) ∧
    pairRows (addToCart (addToCart demoStore 7 1 2 5).1 7 1 3 6).1 7 1
      = [{ id := demoStore.nextCartItemId, productId := 1, quantity := 2 + 3,
           userId := 7, createdAt := 5, updatedAt := 6 }] :=
  ⟨by decide, by decide, by decide, by decide,
   addToCart_twice_accumulates demoStore 7 1 2 3 5 6 (by decide) (by decide) (by decide)
     (by decide)⟩

theorem applyOp_cartItems_origin (s : Store) (op : Op) :
    ∀ i ∈ (applyOp s op).cartItems, i ∈ s.cartItems ∨ some i.updatedAt = op.time := by
  cases op with
  | add owner pid qty now =>
    intro i hi
    by_cases hc1 : (getProduct s pid).isNone = true
    · simp [applyOp, addToCart, hc1] at hi
      exact Or.inl hi
    · by_cases hc2 : qty < 1
      · simp [applyOp, addToCart, hc1, hc2] at hi
        exact Or.inl hi
      · cases hfind : s.cartItems.find? (fun j => j.isFor owner pid) with
        | some j =>
          simp [applyOp, addToCart, hc1, hc2, hfind] at hi
          obtain ⟨x, hx, hgx⟩ := hi
          by_cases hfx : x.isFor owner pid = true
          · right
            rw [← hgx]
            simp [hfx, update_updated_at_cart_items, Op.time]
          · left
            rw [← hgx]
            simpa [hfx] using hx
        | none =>
          simp [applyOp, addToCart, hc1, hc2, hfind] at hi
          rcases hi with hl | hr
          · exact Or.inl hl
          · right
            rw [hr]
            simp [Op.time, freshRow]
  | update owner cid qty now =>
    intro i hi
    cases hfind : s.cartItems.find? (fun j => j.isOwnedRow owner cid) with
    | none =>
      simp [applyOp, updateCartItem, hfind] at hi
      exact Or.inl hi
    | some j =>
      by_cases hq : qty < 1
      · simp [applyOp, updateCartItem, hfind, hq] at hi
        exact Or.inl hi.1
      · simp [applyOp, updateCartItem, hfind, hq] at hi
        obtain ⟨x, hx, hgx⟩ := hi
        by_cases hfx : x.isOwnedRow owner cid = true
        · right
          rw [← hgx]
          simp [hfx, update_updated_at_cart_items, Op.time]
        · left
          rw [← hgx]
          simpa [hfx] using hx
  | remove owner cid =>
    intro i hi
    by_cases hany : s.cartItems.any (fun j => j.isOwnedRow owner cid) = true
    · simp [applyOp, removeCartItem, hany] at hi
      exact Or.inl hi.1
    · have hf : s.cartItems.any (fun j => j.isOwnedRow owner cid) = false := by
        simpa using hany
      simp [applyOp, removeCartItem, hf] at hi
      exact Or.inl hi
  | checkout owner now =>
    intro i hi
    by_cases hemp : (cartFor s owner).isEmpty = true
    · simp [applyOp, placeOrder, placeOrderTx, placeOrderBody, hemp] at hi
      exact Or.inl hi
    · have hf : (cartFor s owner).isEmpty = false := by simpa using hemp
      simp [applyOp, placeOrder, placeOrderTx, placeOrderBody, hf] at hi
      exact Or.inl hi.1
  | delProduct pid =>
    intro i hi
    simp [applyOp, deleteProduct] at hi
    exact Or.inl hi.1

/-- Claim C9: the engine maintains updated_at automatically — for every
caller-supplied UPDATE of a products, users, orders or cart_items row, the
trigger sets updated_at to the mutation time with no action from the caller,
and after every operation of the service each cart row is either untouched or
stamped with the operation's clock. -/
theorem updated_at_automatic :
    (∀ (now : Nat) (f : Product → Product) (r : Product),
        (update_updated_at_products now (f r)).updatedAt = now) ∧
    (∀ (now : Nat) (f : User → User) (r : User),
        (update_updated_at_users now (f r)).updatedAt = now) ∧
    (∀ (now : Nat) (f : Order → Order) (r : Order),
        (update_updated_at_orders now (f r)).updatedAt = now) ∧
    (∀ (now : Nat) (f : CartItem → CartItem) (r : CartItem),
        (update_updated_at_cart_items now (f r)).updatedAt = now) ∧
    (∀ (s : Store) (op : Op), ∀ i ∈ (applyOp s op).cartItems,
        i ∈ s.cartItems ∨ some i.updatedAt = op.time) :=
  ⟨fun _ _ _ => rfl, fun _ _ _ => rfl, fun _ _ _ => rfl, fun _ _ _ => rfl,
   applyOp_cartItems_origin⟩

theorem updated_at_automatic_witness :
    demoUpdatedRow ∈ (applyOp demoCartStore (Op.update 7 1 5 9)).cartItems ∧
    (demoUpdatedRow ∈ demoCartStore.cartItems ∨
      some demoUpdatedRow.updatedAt = (Op.update 7 1 5 9).time) :=
  ⟨by decide,
   updated_at_automatic.2.2.2.2 demoCartStore (Op.update 7 1 5 9) demoUpdatedRow (by decide)⟩

theorem quantityInv_applyOp (s : Store) (op : Op) (h : quantityInv s) :
    quantityInv (applyOp s op) := by
  cases op with
  | add owner pid qty now =>
    by_cases hc1 : (getProduct s pid).isNone = true
    · simpa [applyOp, addToCart, hc1] using h
    · by_cases hc2 : qty < 1
      · simpa [applyOp, addToCart, hc1, hc2] using h
      · cases hfind : s.cartItems.find? (fun j => j.isFor owner pid) with
        | some j =>
          intro i hi
          simp [applyOp, addToCart, hc1, hc2, hfind] at hi
          obtain ⟨x, hx, hgx⟩ := hi
          by_cases hfx : x.isFor owner pid = true
          · rw [← hgx]
            simp [hfx, update_updated_at_cart_items]
            have := h x hx
            omega
          · rw [← hgx]
            simp [hfx]
            exact h x hx
        | none =>
          intro i hi
          simp [applyOp, addToCart, hc1, hc2, hfind] at hi
          rcases hi with hl | hr
          · exact h i hl
          · rw [hr]
            simp [freshRow]
            omega
  | update owner cid qty now =>
    cases hfind : s.cartItems.find? (fun j => j.isOwnedRow owner cid) with
    | none => simpa [applyOp, updateCartItem, hfind] using h
    | some j =>
      by_cases hq : qty < 1
      · intro i hi
        simp [applyOp, updateCartItem, hfind, hq] at hi
        exact h i hi.1
      · intro i hi
        simp [applyOp, updateCartItem, hfind, hq] at hi
        obtain ⟨x, hx, hgx⟩ := hi
        by_cases hfx : x.isOwnedRow owner cid = true
        · rw [← hgx]
          simp [hfx, update_updated_at_cart_items]
          omega
        · rw [← hgx]
          simp [hfx]
          exact h x hx
  | remove owner cid =>
    by_cases hany : s.cartItems.any (fun j => j.isOwnedRow owner cid) = true
    · intro i hi
      simp [applyOp, removeCartItem, hany] at hi
      exact h i hi.1
    · have hf : s.cartItems.any (fun j => j.isOwnedRow owner cid) = false := by
        simpa using hany
      simpa [applyOp, removeCartItem, hf] using h
  | checkout owner now =>
    by_cases hemp : (cartFor s owner).isEmpty = true
    · simpa [applyOp, placeOrder, placeOrderTx, placeOrderBody, hemp] using h
    · have hf : (cartFor s owner).isEmpty = false := by simpa using hemp
      intro i hi
      simp [applyOp, placeOrder, placeOrderTx, placeOrderBody, hf] at hi
      exact h i hi.1
  | delProduct pid =>
    intro i hi
    simp [applyOp, deleteProduct] at hi
    exact h i hi.1

/-- Claim C4: every cart row reachable through the service's operations keeps
quantity at least 1 — if the invariant holds of a store, it holds after any
sequence of operations. -/
theorem cart_quantities_positive (s : Store) (ops : List Op) (h : quantityInv s) :
    quantityInv (applyOps s ops) := by
  induction ops generalizing s with
  | nil => simpa [applyOps] using h
  | cons op rest ih =>
    have h1 := quantityInv_applyOp s op h
    simpa [applyOps] using ih (applyOp s op) h1

theorem cart_quantities_positive_witness :
    quantityInv demoCartStore ∧ quantityInv (applyOps demoCartStore tenCycleOps) :=
  ⟨by decide, cart_quantities_positive demoCartStore tenCycleOps (by decide)⟩

theorem cartOp_fixes_catalog (s : Store) (op : Op) (h : op.isCartOp = true) :
    (applyOp s op).products = s.products ∧ (applyOp s op).orders = s.orders ∧
    (applyOp s op).orderItems = s.orderItems ∧
    (applyOp s op).nextOrderId = s.nextOrderId := by
  cases op with
  | add owner pid qty now =>
    by_cases hc1 : (getProduct s pid).isNone = true
    · simp [applyOp, addToCart, hc1]
    · by_cases hc2 : qty < 1
      · simp [applyOp, addToCart, hc1, hc2]
      · cases hfind : s.cartItems.find? (fun j => j.isFor owner pid) with
        | some j => simp [applyOp, addToCart, hc1, hc2, hfind]
        | none => simp [applyOp, addToCart, hc1, hc2, hfind]
  | update owner cid qty now =>
    cases hfind : s.cartItems.find? (fun j => j.isOwnedRow owner cid) with
    | none => simp [applyOp, updateCartItem, hfind]
    | some j =>
      by_cases hq : qty < 1
      · simp [applyOp, updateCartItem, hfind, hq]
      · simp [applyOp, updateCartItem, hfind, hq]
  | remove owner cid =>
    by_cases hany : s.cartItems.any (fun j => j.isOwnedRow owner cid) = true
    · simp [applyOp, removeCartItem, hany]
    · have hf : s.cartItems.any (fun j => j.isOwnedRow owner cid) = false := by
        simpa using hany
      simp [applyOp, removeCartItem, hf]
  | checkout owner now => simp [Op.isCartOp] at h
  | delProduct pid => simp [Op.isCartOp] at h

/-- Claim C8: DECIMAL(10,2) prices, embedded exactly as integer cents, round
trip unchanged — after any sequence of cart add/update/remove operations
(including ten repeated add/update cycles) the catalog is unchanged and every
product price reads back exactly as stored. -/
theorem price_roundtrip_exact (s : Store) (ops : List Op)
    (h : ops.all Op.isCartOp = true) :
    (applyOps s ops).products = s.products ∧
    (∀ pid, getProduct (applyOps s ops) pid = getProduct s pid) ∧
    (∀ pid, priceOf (applyOps s ops) pid = priceOf s pid) := by
  have hprod : ∀ (t : Store) (l : List Op), l.all Op.isCartOp = true →
      (applyOps t l).products = t.products := by
    intro t l
    induction l generalizing t with
    | nil =>
      intro _
      simp [applyOps]
    | cons op rest ih =>
      intro hall
      simp only [List.all_cons, Bool.and_eq_true] at hall
      have h1 := (cartOp_fixes_catalog t op hall.1).1
      have h2 := ih (applyOp t op) hall.2
      simp only [applyOps, List.foldl_cons] at h2 ⊢
      rw [h2, h1]
  refine ⟨hprod s ops h, ?_, ?_⟩
  · intro pid
    simp only [getProduct, hprod s ops h]
  · intro pid
    simp only [priceOf, getProduct, hprod s ops h]

theorem price_roundtrip_exact_witness :
    (tenCycleOps.all Op.isCartOp = true) ∧
    priceOf (applyOps demoStore tenCycleOps) 1 = priceOf demoStore 1 :=
  ⟨by decide, (price_roundtrip_exact demoStore tenCycleOps (by decide)).2.2 1⟩

theorem snapshot_orderId (s : Store) (owner now : Nat) :
    ∀ oi ∈ orderSnapshot s owner now, oi.orderId = s.nextOrderId := by
  intro oi hoi
  simp only [orderSnapshot, List.mem_map] at hoi
  obtain ⟨x, _, hfx⟩ := hoi
  rw [← hfx]

theorem snapshot_price (s : Store) (owner now : Nat) :
    ∀ oi ∈ orderSnapshot s owner now, oi.price = priceOf s oi.productId := by
  intro oi hoi
  simp only [orderSnapshot, List.mem_map] at hoi
  obtain ⟨x, _, hfx⟩ := hoi
  rw [← hfx]

theorem snapshot_total (s : Store) (owner now : Nat) :
    ((orderSnapshot s owner now).map (fun oi => oi.price * oi.quantity)).sum
      = (newOrderRow s owner now).totalAmount := rfl

theorem orderInv_congr (s t : Store) (ho : t.orders = s.orders)
    (hoi : t.orderItems = s.orderItems) (hn : t.nextOrderId = s.nextOrderId)
    (hTot : orderTotalsInv s) (hFresh : orderIdsFresh s) :
    orderTotalsInv t ∧ orderIdsFresh t := by
  constructor
  · unfold orderTotalsInv
    rw [ho, hoi]
    exact hTot
  · unfold orderIdsFresh
    rw [ho, hoi, hn]
    exact hFresh

theorem orderInv_step (s : Store) (op : Op) (hD : op.isDelete = false)
    (hTot : orderTotalsInv s) (hFresh : orderIdsFresh s) :
    orderTotalsInv (applyOp s op) ∧ orderIdsFresh (applyOp s op) := by
  cases op with
  | add owner pid qty now =>
    have hfix := cartOp_fixes_catalog s (.add owner pid qty now) rfl
    exact orderInv_congr s _ hfix.2.1 hfix.2.2.1 hfix.2.2.2 hTot hFresh
  | update owner cid qty now =>
    have hfix := cartOp_fixes_catalog s (.update owner cid qty now) rfl
    exact orderInv_congr s _ hfix.2.1 hfix.2.2.1 hfix.2.2.2 hTot hFresh
  | remove owner cid =>
    have hfix := cartOp_fixes_catalog s (.remove owner cid) rfl
    exact orderInv_congr s _ hfix.2.1 hfix.2.2.1 hfix.2.2.2 hTot hFresh
  | delProduct pid => simp [Op.isDelete] at hD
  | checkout owner now =>
    by_cases hemp : (cartFor s owner).isEmpty = true
    · have hstate : applyOp s (.checkout owner now) = s := by
        simp [applyOp, placeOrder, placeOrderTx, placeOrderBody, hemp]
      rw [hstate]
      exact ⟨hTot, hFresh⟩
    · have hf : (cartFor s owner).isEmpty = false := by simpa using hemp
      have hOrders : (applyOp s (.checkout owner now)).orders
          = s.orders ++ [newOrderRow s owner now] := by
        simp [applyOp, placeOrder, placeOrderTx, placeOrderBody, hf]
      have hItems : (applyOp s (.checkout owner now)).orderItems
          = s.orderItems ++ orderSnapshot s owner now := by
        simp [applyOp, placeOrder, placeOrderTx, placeOrderBody, hf]
      have hNext : (applyOp s (.checkout owner now)).nextOrderId
          = s.nextOrderId + 1 := by
        simp [applyOp, placeOrder, placeOrderTx, placeOrderBody, hf]
      constructor
      · intro o ho
        rw [hOrders] at ho
        rw [hItems, List.filter_append]
        rcases List.mem_append.1 ho with hold | hnew
        · have hsnapnil : (orderSnapshot s owner now).filter
              (fun oi => oi.orderId == o.id) = [] := by
            apply List.filter_eq_nil_iff.2
            intro oi hoi
            have h1 := snapshot_orderId s owner now oi hoi
            have h2 := hFresh.1 o hold
            simp [h1]
            omega
          rw [hsnapnil, List.append_nil]
          exact hTot o hold
        · simp only [List.mem_singleton] at hnew
          subst hnew
          have hold0 : s.orderItems.filter
              (fun oi => oi.orderId == (newOrderRow s owner now).id) = [] := by
            apply List.filter_eq_nil_iff.2
            intro oi hoi
            have h1 := hFresh.2 oi hoi
            have h2 : (newOrderRow s owner now).id = s.nextOrderId := rfl
            simp [h2]
            omega
          have hsnap : (orderSnapshot s owner now).filter
              (fun oi => oi.orderId == (newOrderRow s owner now).id)
              = orderSnapshot s owner now := by
            apply List.filter_eq_self.2
            intro oi hoi
            have h1 := snapshot_orderId s owner now oi hoi
            simp [h1]
            rfl
          rw [hold0, hsnap, List.nil_append]
          exact snapshot_total s owner now
      · constructor
        · intro o ho
          rw [hOrders] at ho
          rw [hNext]
          rcases List.mem_append.1 ho with hold | hnew
          · have := hFresh.1 o hold
            omega
          · simp only [List.mem_singleton] at hnew
            subst hnew
            have h2 : (newOrderRow s owner now).id = s.nextOrderId := rfl
            omega
        · intro oi hoi
          rw [hItems] at hoi
          rw [hNext]
          rcases List.mem_append.1 hoi with hold | hnew
          · have := hFresh.2 oi hold
            omega
          · have := snapshot_orderId s owner now oi hnew
            omega

/-- Claim C3 counterexample: the order-total invariant holds of a store with
one placed order, and deleting the ordered product (an operation the schema's
ON DELETE CASCADE performs on order_items) breaks it. -/
theorem order_totals_broken_by_deleteProduct :
    orderTotalsInv demoOrderStore ∧
    ¬ orderTotalsInv (applyOp demoOrderStore (Op.delProduct 1)) :=
  ⟨by decide, by decide⟩

/-- Claim C3 (amended): the order-total invariant is established by placeOrder
— each snapshot row carries the catalog price of its product at that moment —
and is preserved by every operation other than product deletion; product
deletion can cascade away order_items rows and break it. -/
theorem order_totals_invariant (s : Store) (ops : List Op)
    (hTot : orderTotalsInv s) (hFresh : orderIdsFresh s)
    (hOps : ops.all (fun op => !op.isDelete) = true) :
    orderTotalsInv (applyOps s ops) ∧ orderIdsFresh (applyOps s ops) ∧
    (∀ owner now, ∀ oi ∈ orderSnapshot s owner now,
      oi.price = priceOf s oi.productId) := by
  have main : ∀ (t : Store) (l : List Op), orderTotalsInv t → orderIdsFresh t →
      l.all (fun op => !op.isDelete) = true →
      orderTotalsInv (applyOps t l) ∧ orderIdsFresh (applyOps t l) := by
    intro t l
    induction l generalizing t with
    | nil =>
      intro h1 h2 _
      simpa [applyOps] using And.intro h1 h2
    | cons op rest ih =>
      intro h1 h2 hall
      simp only [List.all_cons, Bool.and_eq_true] at hall
      have hD : op.isDelete = false := by simpa using hall.1
      have hstep := orderInv_step t op hD h1 h2
      have hrest := ih (applyOp t op) hstep.1 hstep.2 hall.2
      simpa [applyOps] using hrest
  exact ⟨(main s ops hTot hFresh hOps).1, (main s ops hTot hFresh hOps).2,
    fun owner now => snapshot_price s owner now⟩

theorem order_totals_invariant_witness :
    orderTotalsInv demoOrderStore ∧ orderIdsFresh demoOrderStore ∧
    (tenCycleOps.all (fun op => !op.isDelete) = true) ∧
    orderTotalsInv (applyOps demoOrderStore tenCycleOps) :=
  ⟨by decide, by decide, by decide,
   (order_totals_invariant demoOrderStore tenCycleOps (by decide) (by decide)
     (by decide)).1⟩

end MythrilMerch

theorem foldl_add_map {β : Type} (g : β → Int) (l : List β) (init : Int) :
    l.foldl (fun t i => t + g i) init = init + (l.map g).sum := by
  induction l generalizing init with
  | nil => simp
  | cons a t ih => simp [List.foldl_cons, ih, add_assoc]

namespace FrontEnd

theorem calculateCartTotal_eq_sum (products : List Product) (cart : List CartItem) :
    calculateCartTotal products cart
      = (cart.map (fun item =>
          match getProductDetails products item.productId with
          | some product => product.price * item.quantity
          | none => 0)).sum := by
  unfold calculateCartTotal
  rw [foldl_add_map]
  simp

theorem getCartItemCount_eq_sum (cart : List CartItem) :
    getCartItemCount cart = (cart.map (fun item => item.quantity)).sum := by
  unfold getCartItemCount
  rw [foldl_add_map]
  simp

theorem sum_eq_claimed (products : List Product) (cart : List CartItem) :
    (cart.map (fun item =>
        match getProductDetails products item.productId with
        | some product => product.price * item.quantity
        | none => 0)).sum
      = claimedCartTotal products cart := by
  unfold claimedCartTotal
  induction cart with
  | nil => simp
  | cons a t ih =>
    cases hgd : getProductDetails products a.productId with
    | none => simp [List.filter_cons, hgd, ih]
    | some p => simp [List.filter_cons, hgd, ih]

/-- Claim C10: the displayed cart total sums price times quantity over exactly
the cart items whose productId matches a fetched product; an unmatched item
contributes 0 to the total while getCartItemCount still counts its
quantity. -/
theorem frontend_cart_total_spec (products : List Product) (cart : List CartItem) :
    calculateCartTotal products cart = claimedCartTotal products cart ∧
    getCartItemCount cart = (cart.map (fun item => item.quantity)).sum ∧
    (∀ pid, (getProductDetails products pid).isSome = true ↔ ∃ p ∈ products, p.id = pid) ∧
    (∀ (item : CartItem) (cart1 cart2 : List CartItem),
      getProductDetails products item.productId = none →
      calculateCartTotal products (cart1 ++ item :: cart2)
        = calculateCartTotal products (cart1 ++ cart2) ∧
      getCartItemCount (cart1 ++ item :: cart2)
        = getCartItemCount (cart1 ++ cart2) + item.quantity) := by
  refine ⟨(calculateCartTotal_eq_sum products cart).trans (sum_eq_claimed products cart),
    getCartItemCount_eq_sum cart, ?_, ?_⟩
  · intro pid
    rw [getProductDetails, List.find?_isSome]
    constructor
    · rintro ⟨p, hp, hpid⟩
      exact ⟨p, hp, by simpa using hpid⟩
    · rintro ⟨p, hp, hpid⟩
      exact ⟨p, hp, by simpa using hpid⟩
  · intro item cart1 cart2 hnone
    constructor
    · rw [calculateCartTotal_eq_sum, calculateCartTotal_eq_sum]
      simp [List.map_append, List.sum_append, hnone]
    · rw [getCartItemCount_eq_sum, getCartItemCount_eq_sum]
      simp only [List.map_append, List.sum_append, List.map_cons, List.sum_cons]
      omega

theorem frontend_cart_total_spec_witness :
    getProductDetails demoFEProducts danglingRow.productId = none ∧
    calculateCartTotal demoFEProducts (demoFECart ++ danglingRow :: [])
      = calculateCartTotal demoFEProducts (demoFECart ++ []) ∧
    getCartItemCount (demoFECart ++ danglingRow :: [])
      = getCartItemCount (demoFECart ++ []) + danglingRow.quantity :=
  ⟨by decide,
   ((frontend_cart_total_spec demoFEProducts demoFECart).2.2.2 danglingRow demoFECart []
     (by decide)).1,
   ((frontend_cart_total_spec demoFEProducts demoFECart).2.2.2 danglingRow demoFECart []
     (by decide)).2⟩

end FrontEnd
